import Mathlib

/-!
# grid / kahuna: crop preferences, export-original-image controller, label service

A shallow embedding of

* `kahuna/public/js/util/crop.js` (crop options, `cropSettings`, the `asCropType` filter),
* `kahuna/public/js/components/gr-export-original-image/gr-export-original-image.js`
  (`callCrop` / `crop`),
* `kahuna/public/js/services/label.js` (`add` / `remove`),

followed by the theorems that settle the claims C1 .. C6 about them.

JavaScript strings are Lean strings; the numbers `parseInt` can return are the
integer-valued doubles, `NaN`, `-0` and the infinities (`JSNumber`); a promise chain is a
function from the state in which it settles to its outcome and the state it leaves.
-/

set_option exponentiation.threshold 1100

namespace Grid

/-! ## JavaScript numbers returned by `parseInt` -/

/-- The Number values `parseInt` can return: `NaN`, an infinity, or an integer-valued
double given by its sign and magnitude (`int true 0` is `-0`). -/
inductive JSNumber where
  | nan
  | inf (neg : Bool)
  | int (neg : Bool) (mag : Nat)
  deriving DecidableEq, Repr

/-- The number of binary digits of `n`. -/
def bitLength (n : Nat) : Nat := (Nat.toDigits 2 n).length

/-- Round a natural number to the nearest integer that a double holds, ties to even, and
ignoring overflow: below `2 ^ 53` every integer is a double; above, only the leading 53 of
the binary digits of `n` are kept. -/
def roundToDouble (n : Nat) : Nat :=
  if n < 2 ^ 53 then n
  else
    let sh := bitLength n - 53
    let q := n / 2 ^ sh
    let r := n % 2 ^ sh
    let half := 2 ^ (sh - 1)
    if r > half ∨ (r = half ∧ q % 2 = 1) then (q + 1) * 2 ^ sh else q * 2 ^ sh

/-- The Number value `𝔽(± n)` of ECMAScript for a mathematical integer: rounded to the
nearest double, and an infinity from `2 ^ 1024` on. -/
def JSNumber.ofInteger (neg : Bool) (n : Nat) : JSNumber :=
  if roundToDouble n < 2 ^ 1024 then .int neg (roundToDouble n) else .inf neg

/-! ## JavaScript strings: white space, `split`, `isNaN`, `parseInt` -/

/-- The code points of `StrWhiteSpaceChar`: the white space and line terminator characters
that `trim`, `Number` and `parseInt` skip. -/
def isStrWhiteSpaceChar (c : Char) : Bool :=
  let n := c.toNat
  n == 0x09 || n == 0x0A || n == 0x0B || n == 0x0C || n == 0x0D || n == 0x20 || n == 0xA0 ||
  n == 0x1680 || (0x2000 ≤ n && n ≤ 0x200A) || n == 0x2028 || n == 0x2029 || n == 0x202F ||
  n == 0x205F || n == 0x3000 || n == 0xFEFF

/-- Drop leading white space (`TrimString(s, start)`). -/
def trimStart (s : List Char) : List Char := s.dropWhile isStrWhiteSpaceChar

/-- Drop leading and trailing white space (`String.prototype.trim`). -/
def trim (s : List Char) : List Char := (trimStart (trimStart s).reverse).reverse

/-- Split a list of characters at every occurrence of `sep`; there is always at least one
piece. -/
def splitChars (sep : Char) : List Char → List (List Char)
  | [] => [[]]
  | c :: cs =>
    if c = sep then [] :: splitChars sep cs
    else
      match splitChars sep cs with
      | [] => [[c]]
      | p :: ps => (c :: p) :: ps

/-- The method `s.split(sep)` for a one-character separator. -/
def split (s : String) (sep : Char) : List String :=
  (splitChars sep s.toList).map String.mk

/-- A nonempty run of decimal digits (`DecimalDigits`). -/
def isDecimalDigits (s : List Char) : Bool := !s.isEmpty && s.all Char.isDigit

/-- The grammar `SignedInteger`. -/
def isSignedInteger : List Char → Bool
  | '+' :: ds => isDecimalDigits ds
  | '-' :: ds => isDecimalDigits ds
  | ds => isDecimalDigits ds

/-- The grammar `ExponentPart`, or nothing. -/
def isExponentPartOpt : List Char → Bool
  | [] => true
  | e :: rest => (e == 'e' || e == 'E') && isSignedInteger rest

/-- The grammar `StrUnsignedDecimalLiteral`: `Infinity`, `digits . digits? exp?`,
`. digits exp?` or `digits exp?`. -/
def isStrUnsignedDecimalLiteral (s : List Char) : Bool :=
  s == "Infinity".toList ||
    (let ip := s.takeWhile Char.isDigit
     match s.dropWhile Char.isDigit with
     | '.' :: r =>
       (!ip.isEmpty || !(r.takeWhile Char.isDigit).isEmpty) &&
         isExponentPartOpt (r.dropWhile Char.isDigit)
     | rest => !ip.isEmpty && isExponentPartOpt rest)

/-- The grammar `StrDecimalLiteral`: an optional sign, then an unsigned decimal literal. -/
def isStrDecimalLiteral : List Char → Bool
  | '+' :: s => isStrUnsignedDecimalLiteral s
  | '-' :: s => isStrUnsignedDecimalLiteral s
  | s => isStrUnsignedDecimalLiteral s

/-- The grammar `NonDecimalIntegerLiteral`: `0b`, `0o` or `0x` and at least one digit of that
radix. -/
def isNonDecimalIntegerLiteral : List Char → Bool
  | '0' :: p :: ds =>
    !ds.isEmpty &&
      (((p == 'b' || p == 'B') && ds.all (fun c => c == '0' || c == '1')) ||
       ((p == 'o' || p == 'O') && ds.all (fun c => '0' ≤ c && c ≤ '7')) ||
       ((p == 'x' || p == 'X') &&
          ds.all (fun c => c.isDigit || ('a' ≤ c && c ≤ 'f') || ('A' ≤ c && c ≤ 'F'))))
  | _ => false

/-- Whether `Number(s)` is not `NaN`: `s` is a `StringNumericLiteral`, that is white space
only, or a numeric literal with white space around it. -/
def isStringNumericLiteral (s : List Char) : Bool :=
  let t := trim s
  t.isEmpty || isStrDecimalLiteral t || isNonDecimalIntegerLiteral t

/-- The global `isNaN` on a string or `undefined` (`none`): the argument is converted with
`Number`, and `Number(undefined)` is `NaN`. -/
def isNaN : Option String → Bool
  | none => true
  | some s => !isStringNumericLiteral s.toList

/-- The ten decimal digit characters. -/
def decimalDigitChars : List Char := ['0', '1', '2', '3', '4', '5', '6', '7', '8', '9']

/-- The value of a character as a digit of `parseInt`: `0-9`, then `a-z` or `A-Z` for 10 to
35. -/
def digitValue (c : Char) : Option Nat :=
  if c.isDigit then some (c.toNat - '0'.toNat)
  else if 'a' ≤ c ∧ c ≤ 'z' then some (c.toNat - 'a'.toNat + 10)
  else if 'A' ≤ c ∧ c ≤ 'Z' then some (c.toNat - 'A'.toNat + 10)
  else none

/-- Whether `c` is a digit of radix `R`. -/
def isRadixDigit (R : Nat) (c : Char) : Bool :=
  match digitValue c with
  | some d => d < R
  | none => false

/-- The integer a list of radix-`R` digits denotes. -/
def digitsValue (R : Nat) (z : List Char) : Nat :=
  z.foldl (fun acc c => R * acc + (digitValue c).getD 0) 0

/-- The global `parseInt(string, radix)` for a radix given as a natural number: skip leading
white space, read a sign, for radix 0 or 16 skip `0x`, read the longest run of digits of the
radix, and return its value as a Number (`NaN` when the run is empty or the radix is not 0
or in 2 .. 36). The value is rounded to the nearest double (an engine may also read the
decimal digits after the twentieth as zeros; here they are read as written). -/
def parseInt (string : String) (radix : Nat) : JSNumber :=
  let S := trimStart string.toList
  let neg := S.head? == some '-'
  let S := match S with
    | '+' :: t => t
    | '-' :: t => t
    | t => t
  if radix ≠ 0 ∧ (radix < 2 ∨ radix > 36) then .nan
  else
    let stripPrefix := radix == 0 || radix == 16
    let R := if radix == 0 then 10 else radix
    let hasPrefix := stripPrefix &&
      (match S with
       | '0' :: p :: _ => p == 'x' || p == 'X'
       | _ => false)
    let S := if hasPrefix then S.drop 2 else S
    let R := if hasPrefix then 16 else R
    let Z := S.takeWhile (isRadixDigit R)
    if Z.isEmpty then .nan else JSNumber.ofInteger neg (digitsValue R Z)

/-- The number of decimal digits of a positive integer (1 for 0). -/
def decimalLength (v : Nat) : Nat := (Nat.toDigits 10 v).length

/-- The candidates `(s, n)` with `k` significant digits for the decimal representation of
the double `v`: `10 ^ (k - 1) ≤ s < 10 ^ k` and `s * 10 ^ (n - k)` rounds to `v`. -/
def shortestCandidates (v k : Nat) : List (Nat × Nat) :=
  let d := decimalLength v
  ([d, d + 1].flatMap (fun n =>
      [v / 10 ^ (n - k), v / 10 ^ (n - k) + 1].map (fun s => (s, n)))).filter
    (fun p => 10 ^ (k - 1) ≤ p.1 && p.1 < 10 ^ k && roundToDouble (p.1 * 10 ^ (p.2 - k)) == v)

/-- The distance between two natural numbers. -/
def natDist (a b : Nat) : Nat := (a - b) + (b - a)

/-- The digits `s`, the exponent `n` and the digit count `k` of `Number::toString` for a
positive integer-valued double `v`: the fewest digits that still round to `v`, and among
those the value closest to `v`. -/
def shortestDigits (v : Nat) : Nat × Nat × Nat :=
  let d := decimalLength v
  match (List.range d).findSome? (fun i =>
      let k := i + 1
      match shortestCandidates v k with
      | [] => none
      | c :: cs =>
        let best := cs.foldl (fun b p =>
          if natDist (p.1 * 10 ^ (p.2 - k)) v < natDist (b.1 * 10 ^ (b.2 - k)) v then p else b) c
        some (best.1, best.2, k)) with
  | some r => r
  | none => (v, d, d)

/-- The string of a Number (`Number::toString`, radix 10) for the values of `JSNumber`. -/
def numberToString : JSNumber → String
  | .nan => "NaN"
  | .inf neg => (if neg then "-" else "") ++ "Infinity"
  | .int _ 0 => "0"
  | .int neg v =>
    let (s, n, k) := shortestDigits v
    let digits := Nat.toDigits 10 s
    let body : List Char :=
      if n ≤ 21 then digits ++ List.replicate (n - k) '0'
      else
        (match digits with
         | [] => []
         | [c] => [c]
         | c :: cs => c :: '.' :: cs) ++ ['e', '+'] ++ Nat.toDigits 10 (n - 1)
    (if neg then "-" else "") ++ String.mk body

/-! ## `util/crop.js` -/

def CROP_TYPE_STORAGE_KEY : String := "cropType"

def CUSTOM_CROP_STORAGE_KEY : String := "customCrop"

/-- The `ratio` field of a crop option: a number literal (`1`) or a quotient `x / y` of two
numbers, kept as written (the double it evaluates to plays no part here). -/
inductive Ratio where
  | lit (n : JSNumber)
  | div (x y : JSNumber)
  deriving DecidableEq, Repr

/-- A crop option `{key, ratio, ratioString}`; `ratio = none` is `null` and
`ratioString = none` is `undefined`. -/
structure CropOption where
  key : String
  ratio : Option Ratio
  ratioString : Option String
  deriving DecidableEq, Repr

def landscape : CropOption :=
  { key := "landscape", ratio := some (.div (.int false 5) (.int false 3)), ratioString := some "5:3" }

def portrait : CropOption :=
  { key := "portrait", ratio := some (.div (.int false 4) (.int false 5)), ratioString := some "4:5" }

def video : CropOption :=
  { key := "video", ratio := some (.div (.int false 16) (.int false 9)), ratioString := some "16:9" }

def square : CropOption :=
  { key := "square", ratio := some (.lit (.int false 1)), ratioString := some "1:1" }

def freeform : CropOption :=
  { key := "freeform", ratio := none, ratioString := none }

def cropOptions : List CropOption := [landscape, portrait, video, square, freeform]

/-- The filter `asCropType`: `cropOptions.find(_ => _.ratioString === ratioString) || freeform`,
then `.key`. The argument is a string or `undefined` (`none`). -/
def asCropType (ratioString : Option String) : String :=
  let cropSpec := (cropOptions.find? (fun o => o.ratioString == ratioString)).getD freeform
  cropSpec.key

/-- The helper `customCrop(label, xRatio, yRatio)`. -/
def customCrop (label : String) (xRatio yRatio : JSNumber) : CropOption :=
  { key := label
    ratio := some (.div xRatio yRatio)
    ratioString := some (numberToString xRatio ++ ":" ++ numberToString yRatio) }

/-- The object `{label, x, y}` that `parseRatio` returns. -/
structure ParsedRatio where
  label : String
  x : JSNumber
  y : JSNumber
  deriving DecidableEq, Repr

/-- The values that are stored and read back here: `undefined`, a string, or a crop option
object. -/
inductive JSValue where
  | undefined
  | string (s : String)
  | cropSpec (c : CropOption)
  deriving DecidableEq, Repr

/-- Truthiness of a string-or-`undefined` argument: `undefined` and the empty string are
falsy. -/
def isTruthy : Option String → Bool
  | none => false
  | some s => s != ""

/-- The helper `isValidCropType`: `cropOptions.some(_ => _.key === cropType)`; a key is a
string, so only a string can be strictly equal to it. -/
def isValidCropType (cropType : JSValue) : Bool :=
  cropOptions.any (fun o => JSValue.string o.key == cropType)

/-- The helper `isValidRatio`: at least three comma-separated pieces, the second and third
of which `Number` reads as a number. -/
def isValidRatio (ratio : String) : Bool :=
  let splitRatio := split ratio ','
  !(decide (splitRatio.length < 3) || isNaN (splitRatio.get? 1) || isNaN (splitRatio.get? 2))

/-- The helper `parseRatio`; `none` is the `undefined` it returns for an invalid ratio. A
valid ratio has at least three pieces, so the pieces 0, 1 and 2 are there. -/
def parseRatio (ratio : String) : Option ParsedRatio :=
  if isValidRatio ratio then
    match split ratio ',' with
    | label :: x :: y :: _ => some { label := label, x := parseInt x 10, y := parseInt y 10 }
    | _ => none
  else none

/-- The injected `storage` service of module `util.storage`, which is not among the sources:
its three methods as functions of a storage state `σ`. The last argument of each is the
optional session argument of the call, `some true` where `crop.js` passes `true` (to `setJs`
and `getJs`) and `none` where it passes nothing (to `clearJs`). -/
structure StorageService (σ : Type) where
  setJs : σ → String → JSValue → Option Bool → σ
  getJs : σ → String → Option Bool → JSValue
  clearJs : σ → String → Option Bool → σ

/-- Modelled from the spec: the `storage` service of module `util.storage` is missing from
the sources, and is taken to be a key-value map with `setJs`, `getJs` and `clearJs`. For the
calls as `crop.js` writes them this says: `getJs(k, true)` after `setJs(k, v, true)` is `v`;
after `clearJs(k)` it is `undefined`; and neither `setJs(k, v, true)` nor `clearJs(k)`
changes what `getJs(k', true)` returns for another key `k'`. A service in which `clearJs(k)`
without the session argument leaves the entry that `getJs(k, true)` reads is not such a
map. -/
structure StorageService.IsKeyValueMap {σ : Type} (storage : StorageService σ) : Prop where
  get_set : ∀ st k v, storage.getJs (storage.setJs st k v (some true)) k (some true) = v
  get_set_other : ∀ st k k' v, k' ≠ k →
    storage.getJs (storage.setJs st k v (some true)) k' (some true) =
      storage.getJs st k' (some true)
  get_clear : ∀ st k, storage.getJs (storage.clearJs st k none) k (some true) = .undefined
  get_clear_other : ∀ st k k', k' ≠ k →
    storage.getJs (storage.clearJs st k none) k' (some true) = storage.getJs st k' (some true)

/-- Modelled from the spec: the `storage` service of module `util.storage` is missing from
the sources; this one is a single key-value map, in which the optional session argument
selects nothing. -/
def mapStorage : StorageService (String → Option JSValue) where
  setJs := fun st key val _ => fun k => if k = key then some val else st k
  getJs := fun st key _ => (st key).getD .undefined
  clearJs := fun st key _ => fun k => if k = key then none else st k

/-- The helper `setCropType`: `storage.setJs(CROP_TYPE_STORAGE_KEY, cropType, true)` for a
valid crop type, `storage.clearJs(CROP_TYPE_STORAGE_KEY)` otherwise. -/
def setCropType {σ : Type} (storage : StorageService σ) (st : σ) (cropType : String) : σ :=
  if isValidCropType (.string cropType) then
    storage.setJs st CROP_TYPE_STORAGE_KEY (.string cropType) (some true)
  else
    storage.clearJs st CROP_TYPE_STORAGE_KEY none

/-- The helper `setCustomCrop`: `storage.setJs(CUSTOM_CROP_STORAGE_KEY, customCrop(..), true)`
for a ratio that parses, `storage.clearJs(CUSTOM_CROP_STORAGE_KEY)` otherwise. -/
def setCustomCrop {σ : Type} (storage : StorageService σ) (st : σ) (customRatio : String) : σ :=
  match parseRatio customRatio with
  | some parsedRatio =>
    storage.setJs st CUSTOM_CROP_STORAGE_KEY
      (.cropSpec (customCrop parsedRatio.label parsedRatio.x parsedRatio.y)) (some true)
  | none => storage.clearJs st CUSTOM_CROP_STORAGE_KEY none

/-- The argument `{cropType, customRatio}` of `cropSettings.set`; `none` is an absent
(`undefined`) field. -/
structure Settings where
  cropType : Option String
  customRatio : Option String

/-- The method `cropSettings.set`. -/
def set {σ : Type} (storage : StorageService σ) (st : σ) (settings : Settings) : σ :=
  let st :=
    if isTruthy settings.cropType then setCropType storage st (settings.cropType.getD "")
    else st
  if isTruthy settings.customRatio then setCustomCrop storage st (settings.customRatio.getD "")
  else st

/-- The method `cropSettings.getCropType`: `storage.getJs(CROP_TYPE_STORAGE_KEY, true)` when
that is a valid crop type; `none` is the `undefined` it returns otherwise. -/
def getCropType {σ : Type} (storage : StorageService σ) (st : σ) : Option String :=
  let cropType := storage.getJs st CROP_TYPE_STORAGE_KEY (some true)
  if isValidCropType cropType then
    match cropType with
    | .string s => some s
    | _ => none
  else none

/-! ## Promises -/

/-- The reason of a rejection; `none` is `undefined`, as in `$q.reject()`. -/
abbrev Reason := Option String

/-- The outcome of a settled promise. -/
inductive Settled (α : Type) where
  | resolved (value : α)
  | rejected (reason : Reason)
  deriving DecidableEq, Repr

/-- The method `p.then(f)` on outcomes: `f` runs on the value of a resolved promise, a
rejection is passed on. -/
def Settled.andThen {α β : Type} (p : Settled α) (f : α → Settled β) : Settled β :=
  match p with
  | .resolved a => f a
  | .rejected r => .rejected r

/-- A promise chain over a state `σ`: from the state in which it starts to settle, its
outcome and the state its callbacks leave. What other code did between the call that built
the chain and its settling is in the state the chain starts from. -/
abbrev Chain (σ α : Type) := σ → Settled α × σ

/-- The chain of a promise that an injected service returns: it settles with the given
outcome and runs no callback of this code. -/
def Chain.ofSettled {σ α : Type} (p : Settled α) : Chain σ α := fun s => (p, s)

/-- The method `p.then(f)`: when `p` resolves, the callback `f` runs on its value and the
promise it returns decides the outcome; when `p` rejects, `f` does not run and the
rejection is passed on. -/
def Chain.andThen {σ α β : Type} (p : Chain σ α) (f : α → Chain σ β) : Chain σ β :=
  fun s =>
    match p s with
    | (.resolved a, s₁) => f a s₁
    | (.rejected r, s₁) => (.rejected r, s₁)

/-- The method `p.finally(g)`: the callback `g` runs however `p` settles, and the outcome of
`p` is kept. -/
def Chain.andFinally {σ α : Type} (p : Chain σ α) (g : σ → σ) : Chain σ α :=
  fun s =>
    match p s with
    | (r, s₁) => (r, g s₁)

/-! ## `gr-export-original-image.js` -/

/-- A label resource; `data` is the label's name. -/
structure Label where
  data : String
  deriving DecidableEq, Repr

/-- An image resource: its id and the labels it carries. -/
structure Image where
  id : String
  labels : List Label
  deriving DecidableEq, Repr

/-- The `data` of a crop resource. -/
structure CropData where
  id : String
  deriving DecidableEq, Repr

/-- The crop resource that `mediaCropper.createFullCrop` resolves with. -/
structure Crop where
  data : CropData
  deriving DecidableEq, Repr

/-- The calls the controller makes on its injected services. -/
inductive Effect where
  | createFullCrop (image : Image)
  | emit (name : String) (image : Image) (crop : Crop)
  | pollUntilCropCreated (image : Image) (cropId : String)
  | stateGo (state : String) (imageId : String) (crop : String)
  deriving DecidableEq, Repr

/-- The controller `grExportOriginalImageCtrl`: whether `ctrl.cropping` is truthy,
`ctrl.image`, and the calls made so far on the injected services, oldest first. -/
structure Ctrl where
  cropping : Bool
  image : Image
  effects : List Effect
  deriving DecidableEq, Repr

/-- How the promises of the injected services `mediaCropper.createFullCrop` and
`pollUntilCropCreated` settle. -/
structure CropServices where
  createFullCrop : Image → Settled Crop
  pollUntilCropCreated : Image → String → Settled Unit

/-- Record a call on an injected service. -/
def Ctrl.call (ctrl : Ctrl) (e : Effect) : Ctrl := { ctrl with effects := ctrl.effects ++ [e] }

/-- The function `crop`: what it does at once (set `ctrl.cropping`, call `createFullCrop`),
and the promise chain it leaves to settle later. -/
def crop (services : CropServices) (imageId : String) (ctrl : Ctrl) : Ctrl × Chain Ctrl Unit :=
  let ctrl := { ctrl with cropping := true }
  let created : Chain Ctrl Crop := Chain.ofSettled (services.createFullCrop ctrl.image)
  ((ctrl.call (.createFullCrop ctrl.image)),
    (created.andThen (fun crop c =>
      let c := c.call (.emit "events:crop-created" c.image crop)
      let polled : Chain Ctrl Unit :=
        Chain.ofSettled (services.pollUntilCropCreated c.image crop.data.id)
      (polled.andThen (fun _ c =>
        (.resolved (), c.call (.stateGo "image" imageId crop.data.id))))
        (c.call (.pollUntilCropCreated c.image crop.data.id)))).andFinally
      (fun c => { c with cropping := false }))

/-- The method `ctrl.callCrop`: the controller afterwards, and the promise chain started, if
any. -/
def callCrop (services : CropServices) (imageId : String) (ctrl : Ctrl) :
    Ctrl × Option (Chain Ctrl Unit) :=
  if !ctrl.cropping then
    let (ctrl, chain) := crop services imageId ctrl
    (ctrl, some chain)
  else (ctrl, none)

/-- The controller after `n` calls of `callCrop` in a row, no promise settling in between. -/
def callCropTimes (services : CropServices) (imageId : String) (n : Nat) (ctrl : Ctrl) : Ctrl :=
  (fun c => (callCrop services imageId c).1)^[n] ctrl

/-- The number of calls of `mediaCropper.createFullCrop` among the recorded calls. -/
def createFullCropCalls (effects : List Effect) : Nat :=
  effects.countP (fun e => match e with
    | .createFullCrop _ => true
    | _ => false)

/-- The arguments of the calls of `$state.go` among the recorded calls. -/
def stateGoCalls (effects : List Effect) : List (String × String × String) :=
  effects.filterMap (fun e => match e with
    | .stateGo state imageId crop => some (state, imageId, crop)
    | _ => none)

/-! ## `services/label.js` -/

/-- The response `newLabels` of posting or deleting labels; `data` is the list of labels the
image then has. -/
structure LabelsResponse where
  data : List Label
  deriving DecidableEq, Repr

/-- The call `$rootScope.$emit(name, newImage, image)`. -/
structure Emitted where
  name : String
  newImage : Image
  image : Image
  deriving DecidableEq, Repr

/-- The services that `labelService` uses and that are not among the sources:
`imageAccessor.readLabels`, how `image.get()` settles at each attempt, how posting labels to
an image and deleting a label of an image settle, and the helper `apiPoll`, which is given
the outcome of each attempt of the function it polls. -/
structure LabelApi where
  readLabels : Image → List Label
  get : Image → Nat → Settled Image
  post : Image → List String → Settled LabelsResponse
  delete : Image → Label → Settled LabelsResponse
  apiPoll : (Nat → Settled Image) → Settled Image

def readLabelName (label : Label) : String := label.data

def readLabelsName (labels : List Label) : List String := labels.map readLabelName

/-- The function `labelsEquals`: the sorted names are equal. Both lists are sorted by the
same order, so which total order it is does not matter for the comparison. -/
def labelsEquals (labelsA labelsB : List Label) : Bool :=
  (readLabelsName labelsA).mergeSort (fun a b => decide (a ≤ b)) ==
    (readLabelsName labelsB).mergeSort (fun a b => decide (a ≤ b))

/-- The function `untilLabelsEqual`, at one attempt of the poll: resolve with the image got
when its labels are the expected ones, reject otherwise. -/
def untilLabelsEqual (api : LabelApi) (image : Image) (expectedLabels : List Label)
    (attempt : Nat) : Settled Image :=
  (api.get image attempt).andThen (fun apiImage =>
    let apiLabels := api.readLabels apiImage
    if labelsEquals apiLabels expectedLabels then .resolved apiImage else .rejected none)

/-- The method `labelService.remove`, over the list of events emitted on `$rootScope`. -/
def remove (api : LabelApi) (image : Image) (label : String) : Chain (List Emitted) Image :=
  let existingLabels := api.readLabels image
  match existingLabels.find? (fun lbl => lbl.data == label) with
  | some existing =>
    ((Chain.ofSettled (api.delete image existing)).andThen (fun newLabels =>
        Chain.ofSettled (api.apiPoll (untilLabelsEqual api image newLabels.data)))).andThen
      (fun newImage emitted =>
        (.resolved newImage, emitted ++ [{ name := "image-updated", newImage := newImage, image := image }]))
  | none => Chain.ofSettled (.resolved image)

/-- The method `labelService.add`, over the list of events emitted on `$rootScope` (its
`console.log` is left out). -/
def add (api : LabelApi) (image : Image) (labels : List String) : Chain (List Emitted) Image :=
  let labels := labels.filter (fun label => label != "" && (trim label.toList).length > 0)
  ((Chain.ofSettled (api.post image labels)).andThen (fun newLabels =>
      Chain.ofSettled (api.apiPoll (untilLabelsEqual api image newLabels.data)))).andThen
    (fun newImage emitted =>
      (.resolved image, emitted ++ [{ name := "image-updated", newImage := newImage, image := image }]))

/-- A label API for the examples: an image is read back with the label `cat` toggled, posting
answers with the labels posted, deleting with no labels, and the poll settles as the first
attempt does. -/
def exampleApi : LabelApi where
  readLabels := fun image => image.labels
  get := fun image _ =>
    .resolved { image with labels := if image.labels.isEmpty then [⟨"cat"⟩] else [] }
  post := fun _ labels => .resolved ⟨labels.map Label.mk⟩
  delete := fun _ _ => .resolved ⟨[]⟩
  apiPoll := fun attempt => attempt 0

/-! ## Crop options and `asCropType` (C4) -/

/-- C4: `asCropType` inverts `ratioString` on the built-in crop options (for each of
landscape, portrait, video, square and freeform it maps the option's `ratioString`, which
is `undefined` for freeform, whose `ratio` is `null`, back to the option's `key`), and it
returns `'freeform'` for every `ratioString` that no built-in option has, the `ratioString`
of a custom crop included when no built-in option has it, such as `'1:5'`. -/
theorem asCropType_inverts_ratioString :
    cropOptions.map (fun o => o.key) = ["landscape", "portrait", "video", "square", "freeform"] ∧
    (∀ o ∈ cropOptions, asCropType o.ratioString = o.key) ∧
    freeform.ratioString = none ∧ freeform.ratio = none ∧
    (∀ ratioString : Option String,
      ratioString ∉ cropOptions.map (fun o => o.ratioString) →
        asCropType ratioString = "freeform") ∧
    (∀ (label : String) (x y : JSNumber),
      (customCrop label x y).ratioString ∉ cropOptions.map (fun o => o.ratioString) →
        asCropType (customCrop label x y).ratioString = "freeform") ∧
    asCropType (customCrop "longcrop" (.int false 1) (.int false 5)).ratioString = "freeform" := by
  have hother : ∀ ratioString : Option String,
      ratioString ∉ cropOptions.map (fun o => o.ratioString) →
        asCropType ratioString = "freeform" := by
    intro ratioString h
    have hfind : cropOptions.find? (fun o => o.ratioString == ratioString) = none := by
      rw [List.find?_eq_none]
      intro o ho heq
      exact h (List.mem_map.mpr ⟨o, ho, by simpa using heq⟩)
    simp [asCropType, hfind, freeform]
  exact ⟨by decide, by decide, rfl, rfl, hother, fun label x y h => hother _ h, by decide⟩

/-- C4 at a `ratioString` that no built-in option has: `asCropType('7:2')` is `'freeform'`. -/
theorem asCropType_inverts_ratioString_witness : asCropType (some "7:2") = "freeform" :=
  asCropType_inverts_ratioString.2.2.2.2.1 (some "7:2") (by decide)

/-! ## The stored crop type (C6) -/

theorem isValidCropType_string (s : String) :
    isValidCropType (.string s) =
      decide (s ∈ ["landscape", "portrait", "video", "square", "freeform"]) := by
  have hbeq : ∀ a : String, (JSValue.string a == JSValue.string s) = decide (s = a) := by
    intro a
    by_cases h : s = a
    · simp [h]
    · have h2 : ¬ a = s := fun e => h e.symm
      simp [h, h2]
  simp [isValidCropType, cropOptions, landscape, portrait, video, square, freeform, hbeq]

theorem mapStorage_isKeyValueMap : mapStorage.IsKeyValueMap where
  get_set := by intro st k v; simp [mapStorage]
  get_set_other := by intro st k k' v h; simp [mapStorage, h]
  get_clear := by intro st k; simp [mapStorage]
  get_clear_other := by intro st k k' h; simp [mapStorage, h]

/-- C6: the crop-type preference round-trips through a storage that is a key-value map. For
every storage state and every key `k` of the five built-in options, `set({cropType: k})`
calls `setJs('cropType', k, true)` and `getCropType()` then returns `k`; for every non-empty
string `s` that is not one of the five keys, `set({cropType: s})` calls `clearJs('cropType')`
and `getCropType()` then returns `undefined`. In both cases the stored custom crop, as
`getJs('customCrop', true)` reads it, is unchanged (`customRatio` is absent). -/
theorem cropType_roundtrip {σ : Type} (storage : StorageService σ)
    (hmap : storage.IsKeyValueMap) (st : σ) :
    (∀ k ∈ ["landscape", "portrait", "video", "square", "freeform"],
      set storage st { cropType := some k, customRatio := none } =
        storage.setJs st CROP_TYPE_STORAGE_KEY (.string k) (some true) ∧
      getCropType storage (set storage st { cropType := some k, customRatio := none }) = some k ∧
      storage.getJs (set storage st { cropType := some k, customRatio := none })
          CUSTOM_CROP_STORAGE_KEY (some true) =
        storage.getJs st CUSTOM_CROP_STORAGE_KEY (some true)) ∧
    (∀ s : String, s ≠ "" → s ∉ ["landscape", "portrait", "video", "square", "freeform"] →
      set storage st { cropType := some s, customRatio := none } =
        storage.clearJs st CROP_TYPE_STORAGE_KEY none ∧
      storage.getJs (set storage st { cropType := some s, customRatio := none })
          CROP_TYPE_STORAGE_KEY (some true) = .undefined ∧
      getCropType storage (set storage st { cropType := some s, customRatio := none }) = none ∧
      storage.getJs (set storage st { cropType := some s, customRatio := none })
          CUSTOM_CROP_STORAGE_KEY (some true) =
        storage.getJs st CUSTOM_CROP_STORAGE_KEY (some true)) := by
  have hkeys : CUSTOM_CROP_STORAGE_KEY ≠ CROP_TYPE_STORAGE_KEY := by decide
  constructor
  · intro k hk
    have hne : k ≠ "" := by
      rintro rfl
      revert hk
      decide
    have hvalid : isValidCropType (.string k) = true := by
      rw [isValidCropType_string]
      exact decide_eq_true hk
    have hset : set storage st { cropType := some k, customRatio := none } =
        storage.setJs st CROP_TYPE_STORAGE_KEY (.string k) (some true) := by
      simp [set, isTruthy, hne, setCropType, hvalid]
    refine ⟨hset, ?_, ?_⟩
    · rw [hset]
      simp [getCropType, hmap.get_set, hvalid]
    · rw [hset]
      exact hmap.get_set_other st _ _ _ hkeys
  · intro s hne hs
    have hvalid : isValidCropType (.string s) = false := by
      rw [isValidCropType_string]
      exact decide_eq_false hs
    have hundef : isValidCropType .undefined = false := by decide
    have hset : set storage st { cropType := some s, customRatio := none } =
        storage.clearJs st CROP_TYPE_STORAGE_KEY none := by
      simp [set, isTruthy, hne, setCropType, hvalid]
    refine ⟨hset, ?_, ?_, ?_⟩
    · rw [hset]
      exact hmap.get_clear st _
    · rw [hset]
      simp [getCropType, hmap.get_clear, hundef]
    · rw [hset]
      exact hmap.get_clear_other st _ _ hkeys

/-- C6 at the one-map storage holding the crop type `'square'` and a custom crop: `'video'`
round-trips and `'panorama'` clears the stored crop type. -/
theorem cropType_roundtrip_witness :
    mapStorage.IsKeyValueMap ∧
    getCropType mapStorage
        (set mapStorage
          (mapStorage.setJs
            (mapStorage.setJs (fun _ => none) CROP_TYPE_STORAGE_KEY (.string "square") (some true))
            CUSTOM_CROP_STORAGE_KEY
            (.cropSpec (customCrop "longcrop" (.int false 1) (.int false 5))) (some true))
          { cropType := some "video", customRatio := none }) = some "video" ∧
    getCropType mapStorage
        (set mapStorage
          (mapStorage.setJs
            (mapStorage.setJs (fun _ => none) CROP_TYPE_STORAGE_KEY (.string "square") (some true))
            CUSTOM_CROP_STORAGE_KEY
            (.cropSpec (customCrop "longcrop" (.int false 1) (.int false 5))) (some true))
          { cropType := some "panorama", customRatio := none }) = none :=
  ⟨mapStorage_isKeyValueMap,
   ((cropType_roundtrip mapStorage mapStorage_isKeyValueMap _).1 "video" (by decide)).2.1,
   ((cropType_roundtrip mapStorage mapStorage_isKeyValueMap _).2 "panorama" (by decide)
     (by decide)).2.2.1⟩

/-! ## `parseRatio` (C3) -/

theorem splitChars_of_not_mem (sep : Char) (l : List Char) (h : sep ∉ l) :
    splitChars sep l = [l] := by
  induction l with
  | nil => rfl
  | cons c cs ih =>
    have hc : c ≠ sep := fun e => h (by simp [e])
    have hcs : sep ∉ cs := fun e => h (by simp [e])
    simp [splitChars, hc, ih hcs]

theorem splitChars_append_sep (sep : Char) (l r : List Char) (h : sep ∉ l) :
    splitChars sep (l ++ sep :: r) = l :: splitChars sep r := by
  induction l with
  | nil => simp [splitChars]
  | cons c cs ih =>
    have hc : c ≠ sep := fun e => h (by simp [e])
    have hcs : sep ∉ cs := fun e => h (by simp [e])
    simp [splitChars, hc, ih hcs]

theorem digitChar_mod_mem (n : Nat) : Nat.digitChar (n % 10) ∈ decimalDigitChars := by
  have h : n % 10 < 10 := Nat.mod_lt _ (by decide)
  interval_cases (n % 10) <;> decide

theorem digitValue_digitChar_mod (n : Nat) :
    digitValue (Nat.digitChar (n % 10)) = some (n % 10) := by
  have h : n % 10 < 10 := Nat.mod_lt _ (by decide)
  interval_cases (n % 10) <;> decide

theorem toDigitsCore_append (fuel : Nat) :
    ∀ (n : Nat) (ds : List Char),
      Nat.toDigitsCore 10 fuel n ds = Nat.toDigitsCore 10 fuel n [] ++ ds := by
  induction fuel with
  | zero => intro n ds; simp [Nat.toDigitsCore]
  | succ fuel ih =>
    intro n ds
    simp only [Nat.toDigitsCore]
    by_cases h : n / 10 = 0
    · simp [h]
    · simp only [h, if_false]
      rw [ih (n / 10) (Nat.digitChar (n % 10) :: ds), ih (n / 10) [Nat.digitChar (n % 10)]]
      simp

theorem toDigitsCore_fuel (fuel₁ : Nat) :
    ∀ (fuel₂ n : Nat), n < fuel₁ → n < fuel₂ →
      Nat.toDigitsCore 10 fuel₁ n [] = Nat.toDigitsCore 10 fuel₂ n [] := by
  induction fuel₁ with
  | zero => intro fuel₂ n h; omega
  | succ fuel₁ ih =>
    intro fuel₂ n h₁ h₂
    cases fuel₂ with
    | zero => omega
    | succ fuel₂ =>
      simp only [Nat.toDigitsCore]
      by_cases h : n / 10 = 0
      · simp [h]
      · simp only [h, if_false]
        have hlt : n / 10 < n := Nat.div_lt_self (by omega) (by decide)
        rw [toDigitsCore_append fuel₁, toDigitsCore_append fuel₂,
          ih fuel₂ (n / 10) (by omega) (by omega)]

/-- The decimal digits of `n` are those of `n / 10` followed by the digit of `n % 10`. -/
theorem toDigits_ten (n : Nat) :
    Nat.toDigits 10 n =
      if n / 10 = 0 then [Nat.digitChar (n % 10)]
      else Nat.toDigits 10 (n / 10) ++ [Nat.digitChar (n % 10)] := by
  by_cases h : n / 10 = 0
  · simp [h, Nat.toDigits, Nat.toDigitsCore]
  · have hlt : n / 10 < n := Nat.div_lt_self (by omega) (by decide)
    have hunfold : Nat.toDigits 10 n = Nat.toDigitsCore 10 (n + 1) n [] := rfl
    rw [hunfold]
    simp only [h, if_false, Nat.toDigitsCore]
    rw [toDigitsCore_append n, toDigitsCore_fuel n (n / 10 + 1) (n / 10) hlt (by omega)]
    rfl

/-- The decimal digits of `n` are a nonempty list of digit characters whose value is `n`. -/
theorem toDigits_ten_spec (n : Nat) :
    Nat.toDigits 10 n ≠ [] ∧ (∀ c ∈ Nat.toDigits 10 n, c ∈ decimalDigitChars) ∧
      digitsValue 10 (Nat.toDigits 10 n) = n := by
  induction n using Nat.strong_induction_on with
  | _ n ih =>
    rw [toDigits_ten]
    by_cases h : n / 10 = 0
    · have hn : n % 10 = n := by omega
      refine ⟨by simp [h], ?_, ?_⟩
      · intro c hc
        simp only [h, if_true, List.mem_singleton] at hc
        exact hc ▸ digitChar_mod_mem n
      · have hd := digitValue_digitChar_mod n
        rw [hn] at hd
        simp [h, digitsValue, hd, hn]
    · have hlt : n / 10 < n := Nat.div_lt_self (by omega) (by decide)
      obtain ⟨_, hall, hval⟩ := ih (n / 10) hlt
      refine ⟨by simp [h], ?_, ?_⟩
      · intro c hc
        simp only [h, if_false, List.mem_append, List.mem_singleton] at hc
        rcases hc with hc | hc
        · exact hall c hc
        · exact hc ▸ digitChar_mod_mem n
      · simp only [h, if_false, digitsValue, List.foldl_append, List.foldl_cons, List.foldl_nil,
          digitValue_digitChar_mod, Option.getD_some]
        have hval2 : List.foldl (fun acc c => 10 * acc + (digitValue c).getD 0) 0
            (Nat.toDigits 10 (n / 10)) = n / 10 := hval
        rw [hval2]
        omega

theorem decimalDigitChars_spec :
    ∀ c ∈ decimalDigitChars,
      c.isDigit = true ∧ isStrWhiteSpaceChar c = false ∧ c ≠ ',' ∧ c ≠ '+' ∧ c ≠ '-' ∧
        isRadixDigit 10 c = true := by
  decide

theorem trimStart_eq_self (l : List Char) (h : ∀ c ∈ l, isStrWhiteSpaceChar c = false) :
    trimStart l = l := by
  cases l with
  | nil => rfl
  | cons c cs => simp [trimStart, List.dropWhile, h c (by simp)]

theorem trim_eq_self (l : List Char) (h : ∀ c ∈ l, isStrWhiteSpaceChar c = false) :
    trim l = l := by
  unfold trim
  rw [trimStart_eq_self l h, trimStart_eq_self l.reverse (by simpa using h)]
  simp

/-- A nonempty list of decimal digits is a numeric literal: `Number` does not read it as
`NaN`. -/
theorem isStringNumericLiteral_digits (ds : List Char) (hne : ds ≠ [])
    (hall : ∀ c ∈ ds, c ∈ decimalDigitChars) : isStringNumericLiteral ds = true := by
  have hws : ∀ c ∈ ds, isStrWhiteSpaceChar c = false :=
    fun c hc => (decimalDigitChars_spec c (hall c hc)).2.1
  have hdig : ∀ c ∈ ds, c.isDigit = true := fun c hc => (decimalDigitChars_spec c (hall c hc)).1
  have htake : ds.takeWhile Char.isDigit = ds := List.takeWhile_eq_self_iff.mpr hdig
  have hdrop : ds.dropWhile Char.isDigit = [] := List.dropWhile_eq_nil_iff.mpr hdig
  have hunsigned : isStrUnsignedDecimalLiteral ds = true := by
    simp [isStrUnsignedDecimalLiteral, htake, hdrop, isExponentPartOpt, hne]
  have hdec : isStrDecimalLiteral ds = true := by
    cases ds with
    | nil => exact absurd rfl hne
    | cons c cs =>
      have hc := decimalDigitChars_spec c (hall c (by simp))
      unfold isStrDecimalLiteral
      split
      · rename_i heq
        exact absurd (List.cons.inj heq).1 hc.2.2.2.1
      · rename_i heq
        exact absurd (List.cons.inj heq).1 hc.2.2.2.2.1
      · exact hunsigned
  simp [isStringNumericLiteral, trim_eq_self ds hws, hdec]

/-- On a nonempty list of decimal digits `parseInt(_, 10)` returns the Number of the integer
the digits denote. -/
theorem parseInt_digits (ds : List Char) (hne : ds ≠ [])
    (hall : ∀ c ∈ ds, c ∈ decimalDigitChars) :
    parseInt (String.mk ds) 10 = JSNumber.ofInteger false (digitsValue 10 ds) := by
  have hws : ∀ c ∈ ds, isStrWhiteSpaceChar c = false :=
    fun c hc => (decimalDigitChars_spec c (hall c hc)).2.1
  have hrad : ∀ c ∈ ds, isRadixDigit 10 c = true :=
    fun c hc => (decimalDigitChars_spec c (hall c hc)).2.2.2.2.2
  have htake : ds.takeWhile (isRadixDigit 10) = ds := List.takeWhile_eq_self_iff.mpr hrad
  cases ds with
  | nil => exact absurd rfl hne
  | cons c cs =>
    have hc := decimalDigitChars_spec c (hall c (by simp))
    have hsign : (match c :: cs with
        | '+' :: t => t
        | '-' :: t => t
        | t => t) = c :: cs := by
      split
      · rename_i heq
        exact absurd (List.cons.inj heq).1 hc.2.2.2.1
      · rename_i heq
        exact absurd (List.cons.inj heq).1 hc.2.2.2.2.1
      · rfl
    have hhead : ((c :: cs).head? == some '-') = false := by
      simp [hc.2.2.2.2.1]
    unfold parseInt
    simp only [String.toList, trimStart_eq_self (c :: cs) hws, hsign, hhead]
    simp [htake]

theorem split_ratio (label : String) (dx dy : List Char) (hlabel : ',' ∉ label.toList)
    (hx : ',' ∉ dx) (hy : ',' ∉ dy) :
    split (label ++ "," ++ String.mk dx ++ "," ++ String.mk dy) ',' =
      [label, String.mk dx, String.mk dy] := by
  have hdata : (label ++ "," ++ String.mk dx ++ "," ++ String.mk dy).toList =
      label.toList ++ ',' :: (dx ++ ',' :: dy) := by
    simp [String.toList, String.data_append]
  unfold split
  rw [hdata, splitChars_append_sep _ _ _ hlabel, splitChars_append_sep _ _ _ hx,
    splitChars_of_not_mem _ _ hy]
  rfl

/-- What `parseRatio` returns on `label,x,y` for any natural numbers `x` and `y` written in
decimal: the label, and the doubles nearest to `x` and `y`. -/
theorem parseRatio_toString (label : String) (x y : Nat) (hlabel : ',' ∉ label.toList) :
    parseRatio (label ++ "," ++ toString x ++ "," ++ toString y) =
      some { label := label, x := JSNumber.ofInteger false x, y := JSNumber.ofInteger false y } := by
  obtain ⟨hxne, hxall, hxval⟩ := toDigits_ten_spec x
  obtain ⟨hyne, hyall, hyval⟩ := toDigits_ten_spec y
  have hxc : ',' ∉ Nat.toDigits 10 x :=
    fun hmem => (decimalDigitChars_spec _ (hxall _ hmem)).2.2.1 rfl
  have hyc : ',' ∉ Nat.toDigits 10 y :=
    fun hmem => (decimalDigitChars_spec _ (hyall _ hmem)).2.2.1 rfl
  have hsx : (toString x : String) = String.mk (Nat.toDigits 10 x) := rfl
  have hsy : (toString y : String) = String.mk (Nat.toDigits 10 y) := rfl
  have hsplit := split_ratio label _ _ hlabel hxc hyc
  have hnx := isStringNumericLiteral_digits _ hxne hxall
  have hny := isStringNumericLiteral_digits _ hyne hyall
  have hpx := parseInt_digits _ hxne hxall
  have hpy := parseInt_digits _ hyne hyall
  rw [hxval] at hpx
  rw [hyval] at hpy
  rw [hsx, hsy]
  simp [parseRatio, isValidRatio, hsplit, isNaN, hnx, hny, hpx, hpy]

theorem ofInteger_of_le (n : Nat) (h : n ≤ 2 ^ 53) : JSNumber.ofInteger false n = .int false n := by
  have hround : roundToDouble n = n := by
    rcases Nat.lt_or_eq_of_le h with hlt | heq
    · rw [roundToDouble, if_pos hlt]
    · subst heq
      decide
  have hlt : n < 2 ^ 1024 := lt_of_le_of_lt h (Nat.pow_lt_pow_right (by decide) (by decide))
  rw [JSNumber.ofInteger, hround, if_pos hlt]

/-- C3, as amended: for every label without a comma and all non-negative integers `x` and `y`
up to `2 ^ 53` written in decimal, `parseRatio(label + ',' + x + ',' + y)` returns
`{label: label, x: x, y: y}`. -/
theorem parseRatio_label_x_y (label : String) (x y : Nat) (hlabel : ',' ∉ label.toList)
    (hx : x ≤ 2 ^ 53) (hy : y ≤ 2 ^ 53) :
    parseRatio (label ++ "," ++ toString x ++ "," ++ toString y) =
      some { label := label, x := .int false x, y := .int false y } := by
  rw [parseRatio_toString label x y hlabel, ofInteger_of_le x hx, ofInteger_of_le y hy]

/-- C3 at the example of the source: `parseRatio('longcrop,1,5')` returns
`{label: 'longcrop', x: 1, y: 5}`. -/
theorem parseRatio_label_x_y_witness :
    parseRatio "longcrop,1,5" = some { label := "longcrop", x := .int false 1, y := .int false 5 } :=
  parseRatio_label_x_y "longcrop" 1 5 (by decide) (by norm_num) (by norm_num)

/-- C3 fails as stated beyond `2 ^ 53`: on `'crop,9007199254740993,1'` the `x` that
`parseRatio` returns is the double `9007199254740992`, not the integer written. -/
theorem parseRatio_large_x_counterexample :
    ',' ∉ "crop".toList ∧
    parseRatio ("crop" ++ "," ++ toString 9007199254740993 ++ "," ++ toString 1) =
      some { label := "crop", x := .int false 9007199254740992, y := .int false 1 } ∧
    parseRatio ("crop" ++ "," ++ toString 9007199254740993 ++ "," ++ toString 1) ≠
      some { label := "crop", x := .int false 9007199254740993, y := .int false 1 } := by
  have hlabel : ',' ∉ "crop".toList := by decide
  have h := parseRatio_toString "crop" 9007199254740993 1 hlabel
  have hx : JSNumber.ofInteger false 9007199254740993 = .int false 9007199254740992 := by decide
  have hy : JSNumber.ofInteger false 1 = .int false 1 := by decide
  rw [hx, hy] at h
  refine ⟨hlabel, h, ?_⟩
  rw [h]
  decide

/-! ## The crop button (C1, C2) -/

theorem callCrop_of_cropping (services : CropServices) (imageId : String) (ctrl : Ctrl)
    (h : ctrl.cropping = true) : callCrop services imageId ctrl = (ctrl, none) := by
  simp [callCrop, h]

theorem callCropTimes_of_cropping (services : CropServices) (imageId : String) (n : Nat)
    (ctrl : Ctrl) (h : ctrl.cropping = true) : callCropTimes services imageId n ctrl = ctrl := by
  induction n with
  | zero => rfl
  | succ n ih =>
    unfold callCropTimes at ih ⊢
    rw [Function.iterate_succ_apply, callCrop_of_cropping services imageId ctrl h]
    exact ih

/-- C1: when `ctrl.cropping` is true, `callCrop()` calls nothing and leaves the controller as
it is; when it is false, `callCrop()` sets `ctrl.cropping` and calls
`mediaCropper.createFullCrop(ctrl.image)` exactly once. Hence any number of `callCrop()`
calls in a row, with no promise settling in between, calls `createFullCrop` at most once. -/
theorem callCrop_guard (services : CropServices) (imageId : String) (ctrl : Ctrl) :
    (ctrl.cropping = true → callCrop services imageId ctrl = (ctrl, none)) ∧
    (ctrl.cropping = false →
      (callCrop services imageId ctrl).1 =
          { ctrl with cropping := true, effects := ctrl.effects ++ [.createFullCrop ctrl.image] } ∧
        (callCrop services imageId ctrl).2.isSome = true ∧
        createFullCropCalls (callCrop services imageId ctrl).1.effects =
          createFullCropCalls ctrl.effects + 1) ∧
    (∀ n, createFullCropCalls (callCropTimes services imageId n ctrl).effects ≤
      createFullCropCalls ctrl.effects + 1) := by
  have hfalse : ctrl.cropping = false →
      (callCrop services imageId ctrl).1 =
          { ctrl with cropping := true, effects := ctrl.effects ++ [.createFullCrop ctrl.image] } ∧
        (callCrop services imageId ctrl).2.isSome = true ∧
        createFullCropCalls (callCrop services imageId ctrl).1.effects =
          createFullCropCalls ctrl.effects + 1 := by
    intro h
    simp [callCrop, h, crop, Ctrl.call, createFullCropCalls]
  refine ⟨callCrop_of_cropping services imageId ctrl, hfalse, ?_⟩
  intro n
  cases hc : ctrl.cropping with
  | true => rw [callCropTimes_of_cropping services imageId n ctrl hc]; omega
  | false =>
    cases n with
    | zero => exact Nat.le_succ _
    | succ n =>
      have hstep := hfalse hc
      unfold callCropTimes
      rw [Function.iterate_succ_apply]
      have hfix := callCropTimes_of_cropping services imageId n (callCrop services imageId ctrl).1
        (by rw [hstep.1])
      unfold callCropTimes at hfix
      rw [hfix, hstep.2.2]

/-- C1 at a controller that is not cropping: the first `callCrop()` calls `createFullCrop`
once, and three calls in a row still make one call. -/
theorem callCrop_guard_witness :
    (callCrop ⟨fun _ => .rejected none, fun _ _ => .rejected none⟩ "img-1"
        { cropping := false, image := ⟨"img-1", []⟩, effects := [] }).1 =
      { cropping := true, image := ⟨"img-1", []⟩, effects := [.createFullCrop ⟨"img-1", []⟩] } ∧
    createFullCropCalls (callCropTimes ⟨fun _ => .rejected none, fun _ _ => .rejected none⟩ "img-1" 3
        { cropping := false, image := ⟨"img-1", []⟩, effects := [] }).effects ≤ 0 + 1 :=
  ⟨((callCrop_guard _ "img-1" { cropping := false, image := ⟨"img-1", []⟩, effects := [] }).2.1 rfl).1,
   (callCrop_guard _ "img-1" { cropping := false, image := ⟨"img-1", []⟩, effects := [] }).2.2 3⟩

/-- C2: however `mediaCropper.createFullCrop` and `pollUntilCropCreated` settle,
`ctrl.cropping` is false once the promise chain of `crop` has settled, and `$state.go` is
called, as `$state.go('image', {imageId, crop: crop.data.id})` and once, exactly when both
promises resolved; the chain calls it in no other case. -/
theorem crop_settled (services : CropServices) (imageId : String) (ctrl c : Ctrl) :
    ((crop services imageId ctrl).2 c).2.cropping = false ∧
    stateGoCalls ((crop services imageId ctrl).2 c).2.effects =
      stateGoCalls c.effects ++
        (match services.createFullCrop ctrl.image with
         | .resolved crop =>
           (match services.pollUntilCropCreated c.image crop.data.id with
            | .resolved _ => [("image", imageId, crop.data.id)]
            | .rejected _ => [])
         | .rejected _ => []) ∧
    (stateGoCalls ((crop services imageId ctrl).2 c).2.effects ≠ stateGoCalls c.effects ↔
      ∃ crop, services.createFullCrop ctrl.image = .resolved crop ∧
        services.pollUntilCropCreated c.image crop.data.id = .resolved ()) := by
  cases hcreate : services.createFullCrop ctrl.image with
  | rejected r =>
    simp [crop, Chain.andThen, Chain.andFinally, Chain.ofSettled, hcreate]
  | resolved cr =>
    cases hpoll : services.pollUntilCropCreated c.image cr.data.id with
    | rejected r =>
      simp [crop, Chain.andThen, Chain.andFinally, Chain.ofSettled, hcreate, Ctrl.call, hpoll,
        stateGoCalls, List.filterMap_append]
    | resolved u =>
      simp [crop, Chain.andThen, Chain.andFinally, Chain.ofSettled, hcreate, Ctrl.call, hpoll,
        stateGoCalls, List.filterMap_append]

/-! ## Adding and removing a label (C5) -/

/-- How `labelService.add` settles: it rejects and emits nothing when the post or the poll
rejects; when both resolve it emits `image-updated` once, with the polled image and the
original one, and resolves with the original `image`. -/
theorem add_outcome (api : LabelApi) (image : Image) (labels : List String)
    (emitted : List Emitted) :
    add api image labels emitted =
      (match api.post image
          (labels.filter (fun label => label != "" && (trim label.toList).length > 0)) with
       | .rejected r => (.rejected r, emitted)
       | .resolved newLabels =>
         (match api.apiPoll (untilLabelsEqual api image newLabels.data) with
          | .rejected r => (.rejected r, emitted)
          | .resolved newImage =>
            (.resolved image, emitted ++ [⟨"image-updated", newImage, image⟩]))) := by
  unfold add
  cases hpost : api.post image
      (labels.filter (fun label => label != "" && (trim label.toList).length > 0)) with
  | rejected r => simp [Chain.andThen, Chain.ofSettled, hpost]
  | resolved newLabels =>
    cases hpoll : api.apiPoll (untilLabelsEqual api image newLabels.data) with
    | rejected r => simp [Chain.andThen, Chain.ofSettled, hpost, hpoll]
    | resolved newImage => simp [Chain.andThen, Chain.ofSettled, hpost, hpoll]

/-- How `labelService.remove` settles when the image has the label: it rejects and emits
nothing when the delete or the poll rejects; when both resolve it emits `image-updated`
once, with the polled image and the original one, and resolves with the polled image. -/
theorem remove_outcome (api : LabelApi) (image : Image) (label : String) (existing : Label)
    (emitted : List Emitted)
    (hfind : (api.readLabels image).find? (fun lbl => lbl.data == label) = some existing) :
    remove api image label emitted =
      (match api.delete image existing with
       | .rejected r => (.rejected r, emitted)
       | .resolved newLabels =>
         (match api.apiPoll (untilLabelsEqual api image newLabels.data) with
          | .rejected r => (.rejected r, emitted)
          | .resolved newImage =>
            (.resolved newImage, emitted ++ [⟨"image-updated", newImage, image⟩]))) := by
  unfold remove
  simp only [hfind]
  cases hdel : api.delete image existing with
  | rejected r => simp [Chain.andThen, Chain.ofSettled, hdel]
  | resolved newLabels =>
    cases hpoll : api.apiPoll (untilLabelsEqual api image newLabels.data) with
    | rejected r => simp [Chain.andThen, Chain.ofSettled, hdel, hpoll]
    | resolved newImage => simp [Chain.andThen, Chain.ofSettled, hdel, hpoll]

/-- C5 at an input where the code departs from it: adding the label `cat` to an image
without labels, the post and the poll both resolving, emits `image-updated` once with the
polled image (which has the label) and the original image, but the promise of `add`
resolves with the original image, not with the polled one; `remove` on the polled image
resolves with the image polled after the removal. -/
theorem add_resolves_with_original_image :
    exampleApi.apiPoll (untilLabelsEqual exampleApi ⟨"img-1", []⟩ [⟨"cat"⟩]) =
      .resolved ⟨"img-1", [⟨"cat"⟩]⟩ ∧
    add exampleApi ⟨"img-1", []⟩ ["cat"] [] =
      (.resolved ⟨"img-1", []⟩,
        [⟨"image-updated", ⟨"img-1", [⟨"cat"⟩]⟩, ⟨"img-1", []⟩⟩]) ∧
    (add exampleApi ⟨"img-1", []⟩ ["cat"] []).1 ≠ .resolved ⟨"img-1", [⟨"cat"⟩]⟩ ∧
    remove exampleApi ⟨"img-1", [⟨"cat"⟩]⟩ "cat" [] =
      (.resolved ⟨"img-1", []⟩,
        [⟨"image-updated", ⟨"img-1", []⟩, ⟨"img-1", [⟨"cat"⟩]⟩⟩]) := by
  have hpoll : exampleApi.apiPoll (untilLabelsEqual exampleApi ⟨"img-1", []⟩ [⟨"cat"⟩]) =
      .resolved ⟨"img-1", [⟨"cat"⟩]⟩ := by
    simp [exampleApi, untilLabelsEqual, Settled.andThen, labelsEquals]
  have hpoll2 : exampleApi.apiPoll (untilLabelsEqual exampleApi ⟨"img-1", [⟨"cat"⟩]⟩ []) =
      .resolved ⟨"img-1", []⟩ := by
    simp [exampleApi, untilLabelsEqual, Settled.andThen, labelsEquals]
  have hfilter : (["cat"].filter (fun label => label != "" && (trim label.toList).length > 0)) =
      ["cat"] := by decide
  have hadd : add exampleApi ⟨"img-1", []⟩ ["cat"] [] =
      (.resolved ⟨"img-1", []⟩,
        [⟨"image-updated", ⟨"img-1", [⟨"cat"⟩]⟩, ⟨"img-1", []⟩⟩]) := by
    rw [add_outcome, hfilter]
    have hpost : exampleApi.post ⟨"img-1", []⟩ ["cat"] = .resolved ⟨[⟨"cat"⟩]⟩ := rfl
    simp only [hpost, hpoll]
    rfl
  refine ⟨hpoll, hadd, ?_, ?_⟩
  · rw [hadd]
    decide
  · rw [remove_outcome exampleApi ⟨"img-1", [⟨"cat"⟩]⟩ "cat" ⟨"cat"⟩ [] (by decide)]
    have hdel : exampleApi.delete ⟨"img-1", [⟨"cat"⟩]⟩ ⟨"cat"⟩ = .resolved ⟨[]⟩ := rfl
    simp only [hdel, hpoll2]
    rfl

end Grid
